import Mathlib

/-!
Verification development for the cougar enrichment pipeline (`src/api/api.py`).

The Python source is shallowly embedded: machine floats are modelled as exact
rationals (`ℚ`), Python dicts as insertion-ordered association lists, Python
exceptions as `Except PyErr`, and the network boundary (Wikipedia/Wikidata
fetches) as an explicit environment record of pure functions.  Each definition
mirrors one function of the source; line numbers in doc comments refer to
`src/api/api.py`.
-/

namespace Cougar

/-- Python exceptions that the modelled code can raise. -/
inductive PyErr where
  | valueError
  | attributeError
  | nameError
deriving DecidableEq

deriving instance DecidableEq for Except

/-- Rounding to the nearest integer with ties to even, as Python's builtin
`round` does on a number with no fractional digits argument. -/
def roundHalfEven (q : ℚ) : ℤ :=
  let f : ℤ := ⌊q⌋
  let frac : ℚ := q - f
  if frac < 1/2 then f
  else if 1/2 < frac then f + 1
  else if f % 2 = 0 then f else f + 1

/-- Python's `round(q, n)` for `n` decimal digits (ties to even).  The source
applies it to IEEE doubles; all concrete values in this development are far
from representation-induced ties, so the exact-rational model agrees. -/
def pyRound (q : ℚ) (n : ℕ) : ℚ := (roundHalfEven (q * 10 ^ n) : ℚ) / 10 ^ n

/-- Conversion constant used at api.py lines 321/324/710/713: 1 kW = 1.34102 hp. -/
def HP_PER_KW : ℚ := 134102/100000

/-- Conversion constant used at api.py lines 349-366/734: 1 kg = 2.20462 lb. -/
def LB_PER_KG : ℚ := 220462/100000

/-- Conversion constant used at api.py lines 409-418: 1 Nm = 0.737562 lb-ft. -/
def LBFT_PER_NM : ℚ := 737562/1000000

/-- Numeric value of a decimal digit character. -/
def charVal (c : Char) : ℕ := c.toNat - '0'.toNat

/-- Python `s.lower()`, working on the character list (ASCII case mapping,
as `Char.toLower` provides). -/
def pyLower (s : String) : String := String.mk (s.data.map Char.toLower)

/-- Value of a string of decimal digits. -/
def digitsToNat (l : List Char) : ℕ := l.foldl (fun a c => a * 10 + charVal c) 0

/-- Core of Python's `float()` on the decimal grammar `digits [ . digits ]`
(either side of the point may be empty but not both).  Exponents, `inf`/`nan`,
underscores and surrounding whitespace are not modelled: every string this
development feeds to it is built from digits, `.`, `,` and narrow spaces. -/
def floatCore (t : List Char) : Option ℚ :=
  let ip := t.takeWhile (· ≠ '.')
  match t.dropWhile (· ≠ '.') with
  | [] => if ip ≠ [] ∧ ip.all Char.isDigit then some ((digitsToNat ip : ℚ)) else none
  | _ :: fp =>
    if (ip ≠ [] ∨ fp ≠ []) ∧ ip.all Char.isDigit ∧ fp.all Char.isDigit
    then some ((digitsToNat ip : ℚ) + (digitsToNat fp : ℚ) / 10 ^ fp.length) else none

/-- The helper `to_num` defined inside each unit parser (api.py lines 300-301,
334-335, 376-377, 400-401): strip `,` and the narrow no-break space, then
`float(...)`.  `none` models the `ValueError` that `float` raises. -/
def to_num (g : List Char) : Option ℚ :=
  floatCore (g.filter (fun c => c ≠ ',' ∧ c ≠ ' '))

/-- Python's `float()` on an arbitrary string, over the modelled decimal
grammar with one optional leading sign; `none` models the `ValueError`. -/
def pyFloat? (s : String) : Option ℚ :=
  match s.data with
  | '+' :: r => floatCore r
  | '-' :: r => (floatCore r).map (fun q => -q)
  | r => floatCore r

/-- Characters matched by the number class `[0-9,\. ]` of the spec
regexes (after their leading `[0-9]`). -/
def numClass (c : Char) : Bool := c.isDigit || c = ',' || c = '.' || c = ' '

/-- Whitespace as matched by `\s` in the spec regexes, restricted to the
characters that can occur around the numbers and unit markers. -/
def isPyWs (c : Char) : Bool :=
  c = ' ' || c = '\t' || c = '\n' || c = '\r' || c = ' ' || c = ' '

/-- One element of a unit-marker pattern: a literal character, an optional
character (`X?`), or an optional whitespace character (`\s?`).  The full
patterns from api.py lines 303-404 are alternation lists of these. -/
inductive UPat where
  | lit (c : Char)
  | opt (c : Char)
  | optWs
deriving DecidableEq

/-- Literal pattern from a string. -/
def lits (s : String) : List UPat := s.data.map UPat.lit

/-- Match one alternative of a unit-marker pattern against the text, with the
same greedy-then-backtrack behaviour as the regex engine; returns the rest of
the text after the marker. -/
def matchSeq : List UPat → List Char → Option (List Char)
  | [], s => some s
  | .lit c :: ps, s =>
    match s with
    | x :: r => if x = c then matchSeq ps r else none
    | [] => none
  | .opt c :: ps, s =>
    (match s with
     | x :: r => if x = c then matchSeq ps r else none
     | [] => none).orElse (fun _ => matchSeq ps s)
  | .optWs :: ps, s =>
    (match s with
     | x :: r => if isPyWs x then matchSeq ps r else none
     | [] => none).orElse (fun _ => matchSeq ps s)

/-- Match an alternation of unit-marker patterns, first alternative wins, as
in the regex `(?:a|b|c)`. -/
def matchAlts : List (List UPat) → List Char → Option (List Char)
  | [], _ => none
  | a :: rest, s => (matchSeq a s).orElse (fun _ => matchAlts rest s)

/-- Scanner for `re.findall(r'([0-9][0-9,\. ]*)\s*UNIT', text, re.I)`
(api.py lines 303-404): at each position (tracked by walking the list with a
skip count), a digit starts a greedy number group, then optional whitespace,
then the unit marker; on success the scan resumes right after the matched
text (matches do not overlap), on failure at the next character.  The text is
lowercased by the caller, so the case-insensitivity of `re.I` reduces to
lowercase literals. -/
def scanNU (alts : List (List UPat)) (s : List Char) : List (List Char) :=
  go s 0
where
  go : List Char → Nat → List (List Char)
    | [], _ => []
    | c :: rest, skip =>
      if 0 < skip then go rest (skip - 1)
      else if c.isDigit then
        match matchAlts alts ((rest.dropWhile numClass).dropWhile isPyWs) with
        | some rest2 => (c :: rest.takeWhile numClass) :: go rest (rest.length - rest2.length)
        | none => go rest 0
      else go rest 0

/-- Scanner for the weight range regex
`([0-9][0-9,\. ]*)\s*[–-]\s*([0-9][0-9,\. ]*)\s*kg` of api.py line
338, returning the two number groups of each non-overlapping match. -/
def scanKgRange (s : List Char) : List (List Char × List Char) :=
  go s 0
where
  go : List Char → Nat → List (List Char × List Char)
    | [], _ => []
    | c :: rest, skip =>
      if 0 < skip then go rest (skip - 1)
      else if c.isDigit then
        match (rest.dropWhile numClass).dropWhile isPyWs with
        | d :: r2 =>
          if d = '–' ∨ d = '-' then
            match r2.dropWhile isPyWs with
            | e :: r4 =>
              if e.isDigit then
                if ['k', 'g'].isPrefixOf ((r4.dropWhile numClass).dropWhile isPyWs) then
                  (c :: rest.takeWhile numClass, e :: r4.takeWhile numClass) ::
                    go rest
                      (rest.length - (((r4.dropWhile numClass).dropWhile isPyWs).drop 2).length)
                else go rest 0
              else go rest 0
            | [] => go rest 0
          else go rest 0
        | [] => go rest 0
      else go rest 0

/-- Unit marker of the kW regex `kW` (api.py line 303), on lowercased text. -/
def kwAlts : List (List UPat) := [lits "kw"]

/-- Unit marker of the hp regex `(?:hp|PS|ps)` (api.py line 304); under
`re.I` the two `ps` spellings coincide. -/
def hpAlts : List (List UPat) := [lits "hp", lits "ps", lits "ps"]

/-- Unit marker `kg` of the weight regexes (api.py lines 338 and 343). -/
def kgAlts : List (List UPat) := [lits "kg"]

/-- Unit marker of the pound regex `(?:lb|lbs)` (api.py line 357). -/
def lbAlts : List (List UPat) := [lits "lb", lits "lbs"]

/-- Unit marker of the litre regex `(?:L|litre|litres)` (api.py line 379). -/
def litreAlts : List (List UPat) := [lits "l", lits "litre", lits "litres"]

/-- Unit marker of the cc regex `(?:cc|cm3)` (api.py line 380). -/
def ccAlts : List (List UPat) := [lits "cc", lits "cm3"]

/-- Unit marker of the torque regex `(?:N\.?\s?m|Nm|N·m)` (api.py line 403). -/
def nmAlts : List (List UPat) :=
  [[UPat.lit 'n', UPat.opt '.', UPat.optWs, UPat.lit 'm'], lits "nm", lits "n·m"]

/-- Unit marker of the pound-feet regex `(?:lb-?ft|ft-lb)` (api.py line 404). -/
def lbftAlts : List (List UPat) :=
  [[UPat.lit 'l', UPat.lit 'b', UPat.opt '-', UPat.lit 'f', UPat.lit 't'], lits "ft-lb"]

/-- Value stored in a spec dict: Python floats, ints, strings, or a raw
quantity-claim record stored verbatim (api.py lines 697/715/736). -/
inductive SpecVal where
  | num (q : ℚ)
  | int (z : ℤ)
  | str (s : String)
  | wdraw (amount : Option ℚ) (unit_label : Option String) (raw_unit : Option String)
deriving DecidableEq

/-- A Python dict with string keys, as an insertion-ordered association list
with unique keys. -/
abbrev Fields := List (String × SpecVal)

/-- Python `d.get(k)` on a dict. -/
def pyGet? : Fields → String → Option SpecVal
  | [], _ => none
  | (k, v) :: d, q => if q = k then some v else pyGet? d q

/-- Python `d[k] = v` on a dict: overwrite in place if the key exists,
otherwise append. -/
def pySet (d : Fields) (k : String) (v : SpecVal) : Fields :=
  match d with
  | [] => [(k, v)]
  | (k2, v2) :: rest => if k2 = k then (k, v) :: rest else (k2, v2) :: pySet rest k v

/-- Python `d.update(m)`: assign every key of `m` in order. -/
def pyUpdate (d : Fields) (m : Fields) : Fields :=
  m.foldl (fun acc e => pySet acc e.1 e.2) d

/-- Python `list(dict.fromkeys(xs))` (api.py line 344): drop duplicates,
keeping the first occurrence of each value. -/
def uniqueFirst (l : List ℚ) : List ℚ :=
  go [] l
where
  go (seen : List ℚ) : List ℚ → List ℚ
    | [] => []
    | x :: xs => if x ∈ seen then go seen xs else x :: go (x :: seen) xs

/-- Python `min(l)` on a nonempty list (callers guard emptiness). -/
def qmin : List ℚ → ℚ
  | [] => 0
  | x :: xs => xs.foldl min x

/-- Python `max(l)` on a nonempty list (callers guard emptiness). -/
def qmax : List ℚ → ℚ
  | [] => 0
  | x :: xs => xs.foldl max x

/-- Python `sum(l)`. -/
def qsum (l : List ℚ) : ℚ := l.foldl (· + ·) 0

/-- Python `sum(l)/len(l)` on a nonempty list. -/
def qavg (l : List ℚ) : ℚ := qsum l / l.length

/-- Apply `to_num` to every regex group, propagating the `ValueError` that
`float` raises on a malformed group, as the list comprehensions at api.py
lines 303-304/340-343/379-380/403-404 do. -/
def liftNums : List (List Char) → Except PyErr (List ℚ)
  | [] => Except.ok []
  | g :: gs =>
    match to_num g with
    | some q => (liftNums gs).map (fun vs => q :: vs)
    | none => Except.error PyErr.valueError

/-- Number groups matched by the kW regex over `text` (api.py line 303). -/
def powerKwGroups (text : String) : List (List Char) := scanNU kwAlts (pyLower text).data

/-- Number groups matched by the hp regex over `text` (api.py line 304). -/
def powerHpGroups (text : String) : List (List Char) := scanNU hpAlts (pyLower text).data

/-- The parser `_parse_power` (api.py lines 292-325).  The error case models
the `ValueError` escaping from `to_num`. -/
def _parse_power (text : String) : Except PyErr Fields :=
  if text = "" then Except.ok []
  else do
    let kws ← liftNums (powerKwGroups text)
    let hps ← liftNums (powerHpGroups text)
    let out1 : Fields :=
      if kws ≠ [] then
        [("power_kw_min", .num (pyRound (qmin kws) 1)),
         ("power_kw_max", .num (pyRound (qmax kws) 1)),
         ("power_kw_avg", .num (pyRound (qavg kws) 1))]
      else []
    let out2 : Fields := out1 ++
      (if hps ≠ [] then
        [("power_hp_min", .num (pyRound (qmin hps) 1)),
         ("power_hp_max", .num (pyRound (qmax hps) 1)),
         ("power_hp_avg", .num (pyRound (qavg hps) 1))]
      else [])
    -- representative values, api.py lines 316-324; the key-membership tests
    -- `'power_hp_max' in out` and `'power_kw_max' in out` hold exactly when
    -- `hps` respectively `kws` is nonempty
    let out3 : Fields := out2 ++
      (if hps ≠ [] ∧ kws ≠ [] then
        [("power_hp", .num (pyRound (qmax hps) 1)),
         ("power_kw", .num (pyRound (qmax kws) 1))]
      else if hps ≠ [] then
        [("power_hp", .num (pyRound (qmax hps) 1)),
         ("power_kw", .num (pyRound (pyRound (qmax hps) 1 / HP_PER_KW) 1))]
      else if kws ≠ [] then
        [("power_kw", .num (pyRound (qmax kws) 1)),
         ("power_hp", .num (pyRound (pyRound (qmax kws) 1 * HP_PER_KW) 1))]
      else [])
    Except.ok out3

/-- Range pairs matched by the kg range regex over `text` (api.py line 338). -/
def weightRangePairs (text : String) : List (List Char × List Char) :=
  scanKgRange (pyLower text).data

/-- Number groups matched by the standalone kg regex (api.py line 343). -/
def weightKgGroups (text : String) : List (List Char) := scanNU kgAlts (pyLower text).data

/-- Number groups matched by the lb regex (api.py line 357). -/
def weightLbGroups (text : String) : List (List Char) := scanNU lbAlts (pyLower text).data

/-- The parser `_parse_weight` (api.py lines 328-367). -/
def _parse_weight (text : String) : Except PyErr Fields :=
  if text = "" then Except.ok []
  else do
    -- kgs from ranges first (line 340-341), then standalone matches (line 343),
    -- then order-preserving dedupe (line 344)
    let rangeNums ← liftNums ((weightRangePairs text).flatMap (fun p => [p.1, p.2]))
    let singles ← liftNums (weightKgGroups text)
    let kgs := uniqueFirst (rangeNums ++ singles)
    if kgs ≠ [] then
      let kgmin := pyRound (qmin kgs) 1
      let kgmax := pyRound (qmax kgs) 1
      let kgavg := pyRound (qavg kgs) 1
      Except.ok
        [("weight_kg_min", .num kgmin),
         ("weight_kg_max", .num kgmax),
         ("weight_kg_avg", .num kgavg),
         ("weight_lb_min", .num (pyRound (kgmin * LB_PER_KG) 1)),
         ("weight_lb_max", .num (pyRound (kgmax * LB_PER_KG) 1)),
         ("weight_lb_avg", .num (pyRound (kgavg * LB_PER_KG) 1)),
         ("weight_kg", .num kgmax),
         ("weight_lb", .num (pyRound (kgmax * LB_PER_KG) 1))]
    else do
      -- fallback to pounds, only evaluated when no kg matched (lines 356-366)
      let lbs ← liftNums (weightLbGroups text)
      if lbs ≠ [] then
        let lbmin := pyRound (qmin lbs) 1
        let lbmax := pyRound (qmax lbs) 1
        let lbavg := pyRound (qavg lbs) 1
        Except.ok
          [("weight_lb_min", .num lbmin),
           ("weight_lb_max", .num lbmax),
           ("weight_lb_avg", .num lbavg),
           ("weight_kg_min", .num (pyRound (lbmin / LB_PER_KG) 1)),
           ("weight_kg_max", .num (pyRound (lbmax / LB_PER_KG) 1)),
           ("weight_kg_avg", .num (pyRound (lbavg / LB_PER_KG) 1)),
           ("weight_kg", .num (pyRound (lbmax / LB_PER_KG) 1)),
           ("weight_lb", .num lbmax)]
      else Except.ok []

/-- Number groups matched by the litre regex (api.py line 379). -/
def dispLGroups (text : String) : List (List Char) := scanNU litreAlts (pyLower text).data

/-- Number groups matched by the cc regex (api.py line 380). -/
def dispCcGroups (text : String) : List (List Char) := scanNU ccAlts (pyLower text).data

/-- The parser `_parse_displacement` (api.py lines 370-391).  Note that no
average field is produced, only min/max and the representatives. -/
def _parse_displacement (text : String) : Except PyErr Fields :=
  if text = "" then Except.ok []
  else do
    let ls ← liftNums (dispLGroups text)
    let ccs ← liftNums (dispCcGroups text)
    if ls ≠ [] then
      Except.ok
        [("displacement_l_min", .num (pyRound (qmin ls) 3)),
         ("displacement_l_max", .num (pyRound (qmax ls) 3)),
         ("displacement_l", .num (pyRound (qmax ls) 3)),
         ("displacement_cc", .int (roundHalfEven (pyRound (qmax ls) 3 * 1000)))]
    else if ccs ≠ [] then
      Except.ok
        [("displacement_cc_min", .int (roundHalfEven (qmin ccs))),
         ("displacement_cc_max", .int (roundHalfEven (qmax ccs))),
         ("displacement_cc", .int (roundHalfEven (qmax ccs))),
         ("displacement_l", .num (pyRound ((roundHalfEven (qmax ccs) : ℚ) / 1000) 3))]
    else Except.ok []

/-- Number groups matched by the Nm regex (api.py line 403). -/
def torqueNmGroups (text : String) : List (List Char) := scanNU nmAlts (pyLower text).data

/-- Number groups matched by the lb-ft regex (api.py line 404). -/
def torqueLbftGroups (text : String) : List (List Char) :=
  scanNU lbftAlts (pyLower text).data

/-- The parser `_parse_torque` (api.py lines 394-419).  Note that no average
field is produced, only min/max and the representatives. -/
def _parse_torque (text : String) : Except PyErr Fields :=
  if text = "" then Except.ok []
  else do
    let nms ← liftNums (torqueNmGroups text)
    let lbfts ← liftNums (torqueLbftGroups text)
    if nms ≠ [] then
      let nmmin := pyRound (qmin nms) 1
      let nmmax := pyRound (qmax nms) 1
      Except.ok
        [("torque_nm_min", .num nmmin),
         ("torque_nm_max", .num nmmax),
         ("torque_nm", .num nmmax),
         ("torque_lbft_min", .num (pyRound (nmmin * LBFT_PER_NM) 1)),
         ("torque_lbft_max", .num (pyRound (nmmax * LBFT_PER_NM) 1)),
         ("torque_lbft", .num (pyRound (nmmax * LBFT_PER_NM) 1))]
    else if lbfts ≠ [] then
      let lfmin := pyRound (qmin lbfts) 1
      let lfmax := pyRound (qmax lbfts) 1
      Except.ok
        [("torque_lbft_min", .num lfmin),
         ("torque_lbft_max", .num lfmax),
         ("torque_lbft", .num lfmax),
         ("torque_nm_min", .num (pyRound (lfmin / LBFT_PER_NM) 1)),
         ("torque_nm_max", .num (pyRound (lfmax / LBFT_PER_NM) 1)),
         ("torque_nm", .num (pyRound (lfmax / LBFT_PER_NM) 1))]
    else Except.ok []

/-! Query tokenisation (api.py lines 469-475, 555, 559, 628-629). -/

/-- Word characters of the regex `\w` for the ASCII texts this development
uses (Unicode word characters beyond ASCII are not modelled). -/
def isWordChar (c : Char) : Bool := c.isAlphanum || c = '_'

/-- Maximal runs of word characters, as `re.findall(r"\w+", s)`. -/
def tokenizeChars (s : List Char) : List (List Char) :=
  go s 0
where
  go : List Char → Nat → List (List Char)
    | [], _ => []
    | c :: rest, skip =>
      if 0 < skip then go rest (skip - 1)
      else if isWordChar c then
        (c :: rest.takeWhile isWordChar) :: go rest (rest.takeWhile isWordChar).length
      else go rest 0

/-- Lowercased word tokens of a string:
`[t.lower() for t in re.findall(r"\w+", s.lower())]`. -/
def tokenize (s : String) : List String :=
  (tokenizeChars (pyLower s).data).map (fun l => String.mk l)

/-- The function `_normalize_query` (api.py lines 469-475): lowercase word
tokens joined by single spaces, in token order. -/
def _normalize_query (q : String) : String := String.intercalate " " (tokenize q)

/-- Cardinality of the token-set intersection,
`len(set(qtokens) & set(cand_tokens))` (api.py line 560). -/
def interCard (a b : List String) : ℕ := (a.dedup.filter (fun t => t ∈ b)).length

/-- True when the token contains a decimal digit (`re.search(r"\d", t)`). -/
def hasDigitTok (t : String) : Bool := t.data.any Char.isDigit

/-- The model bonus of the candidate scorer (api.py lines 561-566): 1 if any
candidate token carries a digit, replaced by 6 when the query has a
digit-bearing token and any candidate token occurs among the query tokens. -/
def model_bonus (qtokens cand_tokens : List String) : ℕ :=
  let base := if cand_tokens.any hasDigitTok then 1 else 0
  if qtokens.any hasDigitTok ∧ cand_tokens.any (fun t => t ∈ qtokens) then 6 else base

/-! Wikidata model (api.py lines 121-289).  The structured knowledge graph is
an environment of pure functions; entities carry claims and English labels,
which is exactly what `wikidata_get_entity` requests (`props=claims|labels`). -/

/-- A claim's datavalue: a quantity (amount and unit as the API returns them,
both possibly missing), a reference to another entity, or any other type. -/
inductive WdDataValue where
  | quantity (amount : Option String) (unit : Option String)
  | entityId (id : Option String)
  | otherType
deriving DecidableEq

/-- A structured-knowledge-graph entity as returned by `wikidata_get_entity`:
claims grouped by property, and the English label.  A claim with no
datavalue in its mainsnak is `Option.none`. -/
structure WdEntity where
  claims : List (String × List (Option WdDataValue))
  label_en : Option String
deriving DecidableEq

/-- One extracted quantity record
`{'amount': ..., 'unit_label': ..., 'raw_unit': ...}` (api.py line 205). -/
structure QEntry where
  amount : Option ℚ
  unit_label : Option String
  raw_unit : Option String
deriving DecidableEq

/-- Generic Python dict read `d.get(k)` over an association list. -/
def alistGet? {α : Type} : List (String × α) → String → Option α
  | [], _ => none
  | (k, v) :: d, q => if q = k then some v else alistGet? d q

/-- Generic Python dict write `d[k] = v` over an association list. -/
def alistSet {α : Type} (d : List (String × α)) (k : String) (v : α) :
    List (String × α) :=
  match d with
  | [] => [(k, v)]
  | (k2, v2) :: rest => if k2 = k then (k, v) :: rest else (k2, v2) :: alistSet rest k v

/-- Python float parsing of a quantity amount string: `float(str(q))`, and on
failure `float(q.lstrip('+'))` (api.py lines 197-203); `none` when both fail
(the code then records a null amount). -/
def parseAmount : Option String → Option ℚ
  | none => none
  | some s =>
    match pyFloat? s with
    | some q => some q
    | none => pyFloat? (String.mk (s.data.dropWhile (· = '+')))

/-- The trailing path segment of a unit URL:
`unit_url.rstrip('/').rsplit('/', 1)[-1]` (api.py line 167). -/
def lastSeg (s : List Char) : List Char :=
  let t := (s.reverse.dropWhile (· = '/')).reverse
  (t.reverse.takeWhile (· ≠ '/')).reverse

/-- The function `_resolve_unit_label` (api.py lines 160-178), with the
per-extraction unit cache threaded explicitly; returns the label and the
updated cache. -/
def _resolve_unit_label (getEntity : String → Option WdEntity) (unit_url : String)
    (cache : List (String × Option String)) :
    Option String × List (String × Option String) :=
  if unit_url = "" then (none, cache)
  else if ¬ ("http".data.isPrefixOf unit_url.data) then (some unit_url, cache)
  else
    let q := String.mk (lastSeg unit_url.data)
    match alistGet? cache q with
    | some lbl => (lbl, cache)
    | none =>
      let lbl := (getEntity q).bind (fun e => e.label_en)
      (lbl, alistSet cache q lbl)

/-- Python truthiness of an optional string (`if unit:`). -/
def strTruthy : Option String → Bool
  | none => false
  | some s => s ≠ ""

/-- Step of the claim walk of `wikidata_extract_quantity_claims`
(api.py lines 188-205), threading the output dict and the unit cache. -/
def qcStep (getEntity : String → Option WdEntity) (prop : String)
    (st : List (String × List QEntry) × List (String × Option String))
    (c : Option WdDataValue) :
    List (String × List QEntry) × List (String × Option String) :=
  match c with
  | none => st
  | some (WdDataValue.quantity amount unit) =>
    let amt := parseAmount amount
    let res :=
      if strTruthy unit then
        _resolve_unit_label getEntity (unit.getD "") st.2
      else (none, st.2)
    let entry : QEntry := ⟨amt, res.1, unit⟩
    let out2 :=
      match alistGet? st.1 prop with
      | some l => alistSet st.1 prop (l ++ [entry])
      | none => st.1 ++ [(prop, [entry])]
    (out2, res.2)
  | some _ => st

/-- The function `wikidata_extract_quantity_claims` (api.py lines 181-206):
walk every claim of the entity, keep the quantity-typed ones, parse amounts
(malformed ones become null, they are not dropped), resolve units through a
per-call cache. -/
def wikidata_extract_quantity_claims (getEntity : String → Option WdEntity)
    (entity : Option WdEntity) : List (String × List QEntry) :=
  match entity with
  | none => []
  | some ent =>
    (ent.claims.foldl
      (fun st pc => pc.2.foldl (qcStep getEntity pc.1) st) ([], [])).1

/-- The function `wikidata_extract_linked_entity_qids` (api.py lines
209-228).  The source collects into a Python set; the model keeps first
encounter order, which fixes one iteration order for the set. -/
def wikidata_extract_linked_entity_qids (entity : Option WdEntity) : List String :=
  match entity with
  | none => []
  | some ent =>
    (ent.claims.foldl (fun acc pc =>
      pc.2.foldl (fun acc2 c =>
        match c with
        | some (WdDataValue.entityId (some q)) =>
          if q ∈ acc2 then acc2 else acc2 ++ [q]
        | _ => acc2) acc) [])

/-- Included-linked-entity record (api.py lines 267-270). -/
structure LinkedInfo where
  label : String
  quantities : List (String × List QEntry)
  p31_labels : List String
deriving DecidableEq

/-- The allow-list of api.py line 238. -/
def ALLOW_KEYWORDS : List String :=
  ["engine", "motor", "internal combustion", "vehicle", "car", "automobile",
   "model", "variant"]

/-- Python substring test `needle in hay`. -/
def strContains (hay needle : String) : Bool := decide (needle.data <:+: hay.data)

/-- The function `wikidata_fetch_linked_quantities` (api.py lines 231-273):
for each linked entity, fetch it, gather its label and the labels of its
instance-of (`P31`) targets, and keep it when the combined labels contain an
allow-listed keyword or it has any quantity claims. -/
def wikidata_fetch_linked_quantities (getEntity : String → Option WdEntity)
    (entity : WdEntity) : List (String × LinkedInfo) :=
  (wikidata_extract_linked_entity_qids (some entity)).foldl (fun out q =>
    match getEntity q with
    | none => out
    | some e =>
      let label := (e.label_en).getD ""
      let p31 := (alistGet? e.claims "P31").getD []
      let p31_labels := p31.foldl (fun acc c =>
        match c with
        | some (WdDataValue.entityId (some pid)) =>
          match getEntity pid with
          | some pe => acc ++ [(pe.label_en).getD ""]
          | none => acc
        | _ => acc) []
      let combined := pyLower (String.intercalate " " (label :: p31_labels))
      let qs := wikidata_extract_quantity_claims getEntity (some e)
      if ¬ (ALLOW_KEYWORDS.any (fun k => strContains combined k)) ∧ qs = [] then out
      else alistSet out q ⟨label, qs, p31_labels⟩) []

/-- The dict built by `wikidata_fetch_claims_for_title` at api.py line 287:
its keys are exactly `qid`, `quantities` and `linked`. -/
structure WdResult where
  qid : String
  quantities : List (String × List QEntry)
  linked : List (String × LinkedInfo)
deriving DecidableEq

/-- Values a `WdResult` dict can hold, for the generic `.get` reads the
scorer performs on it. -/
inductive WdVal where
  | s (v : String)
  | qm (v : List (String × List QEntry))
  | lm (v : List (String × LinkedInfo))

/-- The entries of the dict literal at api.py line 287. -/
def WdResult.entries (w : WdResult) : List (String × WdVal) :=
  [("qid", WdVal.s w.qid), ("quantities", WdVal.qm w.quantities),
   ("linked", WdVal.lm w.linked)]

/-- The function `wikidata_fetch_claims_for_title` (api.py lines 276-289). -/
def wikidata_fetch_claims_for_title (entityForTitle : String → Option String)
    (getEntity : String → Option WdEntity) (title : String) : Option WdResult :=
  match entityForTitle title with
  | none => none
  | some qid =>
    if qid = "" then none
    else
      match getEntity qid with
      | none => none
      | some ent =>
        some { qid := qid,
               quantities := wikidata_extract_quantity_claims getEntity (some ent),
               linked := wikidata_fetch_linked_quantities getEntity ent }

/-- The block-list of api.py line 606. -/
def bad_keywords : List String :=
  ["company", "manufacturer", "business", "organization", "software", "film"]

/-- The non-vehicle penalty computation of api.py lines 601-610:
`desc = (wikidata_fetch_claims_for_title(cand) or {}).get('description') or ''`
followed by the keyword test.  The dict read goes through the entries the
fetch actually constructs. -/
def non_vehicle_penalty (wd : Option WdResult) : ℕ :=
  let desc : String :=
    match wd with
    | none => ""
    | some w =>
      match alistGet? w.entries "description" with
      | some (WdVal.s v) => v
      | _ => ""
  if desc ≠ "" ∧ bad_keywords.any (fun bk => strContains (pyLower desc) bk) then 50
  else 0

/-- Wikidata richness of a candidate (api.py lines 591-600): the number of
direct quantity properties plus the total number of quantity entries across
the accepted linked entities. -/
def wdRichness (wd : Option WdResult) : ℕ :=
  match wd with
  | none => 0
  | some w =>
    w.quantities.length +
      w.linked.foldl (fun a lk =>
        a + lk.2.quantities.foldl (fun b pe => b + pe.2.length) 0) 0

/-! The Wikipedia summary record, the enriched item, and the cache
(api.py lines 63-71, 445-529, 744-759). -/

/-- Fields of the REST page summary that `get_cars` reads (api.py lines
746-757).  `content_urls` models `summary.get('content_urls')` as present or
absent together with its `desktop.page` URL. -/
structure Summary where
  title : Option String
  description : Option String
  extract : Option String
  content_urls : Option (Option String)
  thumbnail_source : Option String
deriving DecidableEq

/-- Values of an enriched-item dict: Python `None`, strings, a spec dict,
the nested `_wiki` dict (whose values are all strings or `None`), or a raw
`WdResult` (what line 740 would attach). -/
inductive ItemVal where
  | noneVal
  | str (s : String)
  | fields (f : Fields)
  | wikiDict (entries : List (String × Option String))
  | wdres (w : WdResult)
deriving DecidableEq

/-- An enriched item, a Python dict. -/
abbrev Item := List (String × ItemVal)

/-- One persisted cache entry `{'ts': ..., 'item': ...}` (api.py line 498/522). -/
structure CacheEntry where
  ts : ℚ
  item : Item
deriving DecidableEq

/-- The persisted cache store, a JSON object keyed by strings. -/
abbrev Cache := List (String × CacheEntry)

/-- Body of `_cache_get` for a string key (api.py lines 502-516): lowercase
the title, look it up, and treat entries older than the TTL as absent.
`now` and `ttl` replace `time.time()` and `CACHE_TTL_DAYS`. -/
def _cache_get_str (cache : Cache) (now ttl : ℚ) (title : String) : Option Item :=
  match alistGet? cache (pyLower title) with
  | none => none
  | some e => if (now - e.ts) / 86400 > ttl then none else some e.item

/-- The function `_cache_get` (api.py lines 502-516) as called at line 635
with the possibly-absent scorer result: on `None` the expression
`title.lower()` raises `AttributeError` before anything else happens. -/
def _cache_get (cache : Cache) (now ttl : ℚ) (title : Option String) :
    Except PyErr (Option Item) :=
  match title with
  | none => Except.error PyErr.attributeError
  | some t => Except.ok (_cache_get_str cache now ttl t)

/-- The function `_cache_set` (api.py lines 519-523). -/
def _cache_set (cache : Cache) (now : ℚ) (title : String) (item : Item) : Cache :=
  alistSet cache (pyLower title) ⟨now, item⟩

/-- The function `_cache_get_query` (api.py lines 478-492). -/
def _cache_get_query (cache : Cache) (now ttl : ℚ) (q : String) : Option Item :=
  match alistGet? cache ("q:" ++ _normalize_query q) with
  | none => none
  | some e => if (now - e.ts) / 86400 > ttl then none else some e.item

/-- The function `_cache_set_query` (api.py lines 495-499). -/
def _cache_set_query (cache : Cache) (now : ℚ) (q : String) (item : Item) : Cache :=
  alistSet cache ("q:" ++ _normalize_query q) ⟨now, item⟩

/-- The knowledge-source client (api.py lines 24-157): all network fetches as
an environment of pure functions.  `searchCandidates` is
`wiki_search_candidates(q, limit=8)`, `topHit` is `wiki_search_title`,
`fetchSpecs` is `wiki_fetch_specs` (raw infobox text fields), `fetchSummary`
is `wiki_fetch_summary`, `entityForTitle` is `wikidata_entity_for_title` and
`getEntity` is `wikidata_get_entity`. -/
structure KSEnv where
  searchCandidates : String → List String
  topHit : String → Option String
  fetchSpecs : String → List (String × String)
  fetchSummary : String → Option Summary
  entityForTitle : String → Option String
  getEntity : String → Option WdEntity

/-- Cached richness `len((cached_cand.get('specs') or {}).keys())` with the
surrounding `try/except` that yields 0 on any failure (api.py lines 573-576). -/
def cachedRichness (item : Item) : ℕ :=
  match alistGet? item "specs" with
  | some (ItemVal.fields f) => (f.map Prod.fst).dedup.length
  | some (ItemVal.wikiDict d) => (d.map Prod.fst).dedup.length
  | _ => 0

/-- Score of a candidate on the fetch path (api.py lines 583-613):
infobox richness, wikidata richness, token score, model bonus, penalty. -/
def fetchScore (env : KSEnv) (cand : String) (token_score mb : ℕ) : ℤ :=
  let richness := ((env.fetchSpecs cand).map Prod.fst).dedup.length
  let wd := wikidata_fetch_claims_for_title env.entityForTitle env.getEntity cand
  let wdr := wdRichness wd
  let pen := non_vehicle_penalty
    (wikidata_fetch_claims_for_title env.entityForTitle env.getEntity cand)
  (richness : ℤ) * 8 + (wdr : ℤ) * 12 + (token_score : ℤ) * 4 + (mb : ℤ) * 5 - (pen : ℤ)

/-- The candidate loop of `get_cars` (api.py lines 556-621), tracking
`best = (title, score)` with strict improvement; candidates with zero token
overlap are skipped before any other signal is consulted. -/
def scoreLoop (env : KSEnv) (cache : Cache) (now ttl : ℚ) (qtokens : List String) :
    List String → Option String × ℤ → Option String × ℤ
  | [], best => best
  | cand :: rest, best =>
    let cand_tokens := tokenize cand
    let token_score := interCard qtokens cand_tokens
    let mb := model_bonus qtokens cand_tokens
    if token_score = 0 then scoreLoop env cache now ttl qtokens rest best
    else
      match _cache_get_str cache now ttl cand with
      | some item =>
        if item ≠ [] then
          let s : ℤ := (cachedRichness item : ℤ) * 20 + (token_score : ℤ) * 5 + (mb : ℤ) * 5
          scoreLoop env cache now ttl qtokens rest (if s > best.2 then (some cand, s) else best)
        else
          let s := fetchScore env cand token_score mb
          scoreLoop env cache now ttl qtokens rest (if s > best.2 then (some cand, s) else best)
      | none =>
        let s := fetchScore env cand token_score mb
        scoreLoop env cache now ttl qtokens rest (if s > best.2 then (some cand, s) else best)

/-- Title selection of `get_cars` (api.py lines 549-633): score the (up to 8)
search candidates, and when none wins fall back to the single top hit,
accepted only when it shares a token with the query. -/
def score_and_select (env : KSEnv) (cache : Cache) (now ttl : ℚ) (q : String) :
    Option String :=
  let candidates := env.searchCandidates q
  let title0 : Option String :=
    if candidates ≠ [] then
      (scoreLoop env cache now ttl (tokenize q) candidates (none, -1)).1
    else none
  match title0 with
  | some t => some t
  | none =>
    match env.topHit q with
    | none => none
    | some top => if interCard (tokenize q) (tokenize top) > 0 then some top else none

/-- Raw infobox specs as the starting spec dict (api.py line 650). -/
def rawToFields (raw : List (String × String)) : Fields :=
  raw.foldl (fun d e => pySet d e.1 (SpecVal.str e.2)) []

/-- One `specs.update(_parse_X(raw))` step of api.py lines 653-668; the
`Except.error` side carries the dict state kept when the parser raises (the
enclosing `try` at line 651 swallows the exception and keeps prior updates). -/
def tryParseField (specs : Fields) (key : String)
    (p : String → Except PyErr Fields) : Except Fields Fields :=
  match pyGet? specs key with
  | some (SpecVal.str raw) =>
    if raw = "" then Except.ok specs
    else
      match p raw with
      | Except.ok m => Except.ok (pyUpdate specs m)
      | Except.error _ => Except.error specs
  | _ => Except.ok specs

/-- The unit-normalisation block of api.py lines 651-670: run the four unit
parsers over the raw power/weight/displacement/torque fields in order inside
one `try/except` whose handler keeps the partially updated dict. -/
def parserMergeBlock (specs : Fields) : Fields :=
  match tryParseField specs "power" _parse_power with
  | Except.error s => s
  | Except.ok s1 =>
    match tryParseField s1 "weight" _parse_weight with
    | Except.error s => s
    | Except.ok s2 =>
      match tryParseField s2 "displacement" _parse_displacement with
      | Except.error s => s
      | Except.ok s3 =>
        match tryParseField s3 "torque" _parse_torque with
        | Except.error s => s
        | Except.ok s4 => s4

/-- Lowercased unit label of a quantity record:
`(val.get('unit_label') or '').lower() if val.get('unit_label') else ''`. -/
def getUnitLower (v : QEntry) : String :=
  match v.unit_label with
  | some u => pyLower u
  | none => ""

/-- Merge of the displacement property `P1100` (api.py lines 681-697). -/
def mergeP1100 (wd_q : List (String × List QEntry)) (specs : Fields) : Fields :=
  match alistGet? wd_q "P1100" with
  | some (v :: _) =>
    let unit := getUnitLower v
    match v.amount with
    | some a =>
      if a ≠ 0 then
        if strContains unit "centimet" || strContains unit "cm" then
          pySet (pySet specs "displacement_cc" (SpecVal.int (roundHalfEven a)))
            "displacement_l" (SpecVal.num (pyRound (a / 1000) 3))
        else pySet specs "wikidata_P1100" (SpecVal.wdraw v.amount v.unit_label v.raw_unit)
      else specs
    | none => specs
  | _ => specs

/-- Merge of the power property `P1112` (api.py lines 699-717). -/
def mergeP1112 (wd_q : List (String × List QEntry)) (specs : Fields) : Fields :=
  match alistGet? wd_q "P1112" with
  | some (v :: _) =>
    let unit := getUnitLower v
    match v.amount with
    | some a =>
      if a ≠ 0 then
        if strContains unit "watt" || strContains unit "kw" then
          let kw := if strContains unit "watt" then a / 1000 else a
          pySet (pySet specs "power_kw" (SpecVal.num (pyRound kw 1)))
            "power_hp" (SpecVal.num (pyRound (kw * HP_PER_KW) 1))
        else if strContains unit "hp" then
          pySet (pySet specs "power_hp" (SpecVal.num (pyRound a 1)))
            "power_kw" (SpecVal.num (pyRound (a / HP_PER_KW) 1))
        else pySet specs "wikidata_P1112" (SpecVal.wdraw v.amount v.unit_label v.raw_unit)
      else specs
    | none => specs
  | _ => specs

/-- Merge of the mass property `P2067` (api.py lines 719-738). -/
def mergeP2067 (wd_q : List (String × List QEntry)) (specs : Fields) : Fields :=
  match alistGet? wd_q "P2067" with
  | some (v :: _) =>
    let unit := getUnitLower v
    match v.amount with
    | some a =>
      if a ≠ 0 then
        if strContains unit "gram" || strContains unit "kg" then
          let kg := if strContains unit "gram" && ¬ strContains unit "kilogram"
            then a / 1000 else a
          pySet (pySet specs "weight_kg" (SpecVal.num (pyRound kg 1)))
            "weight_lb" (SpecVal.num (pyRound (kg * LB_PER_KG) 1))
        else pySet specs "wikidata_P2067" (SpecVal.wdraw v.amount v.unit_label v.raw_unit)
      else specs
    | none => specs
  | _ => specs

/-- The statement `synth['_wikidata'] = wd` of api.py line 740, executed in
an environment where the local variable `synth` is only assigned later (line
744): reading an unbound local raises `NameError`, so the assignment can
only succeed if `synth` were already bound at that point. -/
def attachWd (synthVar : Option Item) (w : WdResult) : Except PyErr Item :=
  match synthVar with
  | none => Except.error PyErr.nameError
  | some it => Except.ok (alistSet it "_wikidata" (ItemVal.wdres w))

/-- The structured-claims merge block of api.py lines 672-742: inside one
`try/except Exception: pass`, merge `P1100`/`P1112`/`P2067` into the spec
dict and then attach the raw block to `synth` (line 740).  Returns the spec
dict and `synth` binding as they stand when the block finishes or its
exception is swallowed. -/
def wdMergeBlock (wd : Option WdResult) (specs : Fields) (synthVar : Option Item) :
    Fields × Option Item :=
  match wd with
  | none => (specs, synthVar)
  | some w =>
    if w.quantities = [] then (specs, synthVar)
    else
      let s3 := mergeP2067 w.quantities (mergeP1112 w.quantities (mergeP1100 w.quantities specs))
      match attachWd synthVar w with
      | Except.ok it2 => (s3, some it2)
      | Except.error _ => (s3, synthVar)

/-- Python `x or y` on an optional string with a string default. -/
def pyOrS (a : Option String) (b : String) : String :=
  match a with
  | some s => if s = "" then b else s
  | none => b

/-- Python `s.replace(' ', '-').lower()` (for the slug the source lowers
first and then replaces, which yields the same string). -/
def dashLower (s : String) : String :=
  pyLower (String.mk (s.data.map (fun c => if c = ' ' then '-' else c)))

/-- The synthetic item literal of api.py lines 744-759. -/
def mkSynth (title : String) (summary : Summary) (specs : Fields) : Item :=
  [("id", ItemVal.str ("wiki-" ++ dashLower title)),
   ("name", ItemVal.str (pyOrS summary.title title)),
   ("manufacturer", ItemVal.str ""),
   ("year", ItemVal.str ""),
   ("slug", ItemVal.str (dashLower (pyOrS summary.title title))),
   ("specs", ItemVal.fields specs),
   ("description", ItemVal.str (pyOrS summary.extract "")),
   ("_wiki", ItemVal.wikiDict
     [("title", summary.title),
      ("description", summary.description),
      ("extract", summary.extract),
      ("wiki_url", match summary.content_urls with
        | some p => p
        | none => none),
      ("thumbnail", summary.thumbnail_source)])]

/-- The tail of `get_cars` from the title-cache miss on (api.py lines
643-769): absent title returns empty, absent summary returns empty,
otherwise fetch the infobox, normalise units, merge structured claims (with
`synth` still unbound at the line-740 attach) and return the synthetic item. -/
def afterTitle (env : KSEnv) (q : String) (title : Option String) :
    Except PyErr (List Item) :=
  match title with
  | none => Except.ok []
  | some t =>
    match env.fetchSummary t with
    | none => Except.ok []
    | some summary =>
      let specs0 := rawToFields (env.fetchSpecs t)
      let specs1 := parserMergeBlock specs0
      let wd := wikidata_fetch_claims_for_title env.entityForTitle env.getEntity t
      let specs2 := (wdMergeBlock wd specs1 none).1
      Except.ok [mkSynth t summary specs2]

/-- The resolution flow of `get_cars` after the query-cache miss (api.py
lines 549-769): select a title, consult the title cache — note line 635
calls `_cache_get(title)` before the line-643 `if not title` guard — and
synthesise the item.  Cache writes change the store, not the response, so
the response alone is returned. -/
def enrichResolve (env : KSEnv) (cache : Cache) (now ttl : ℚ) (q : String) :
    Except PyErr (List Item) :=
  let title := score_and_select env cache now ttl q
  match _cache_get cache now ttl title with
  | Except.error e => Except.error e
  | Except.ok cachedOpt =>
    match cachedOpt with
    | some c => if c ≠ [] then Except.ok [c] else afterTitle env q title
    | none => afterTitle env q title

/-- The enrichment path of the search endpoint (api.py lines 542-769),
entered when the local catalog has no match: query-keyed cache first, then
full resolution. -/
def enrich (env : KSEnv) (cache : Cache) (now ttl : ℚ) (q : String) :
    Except PyErr (List Item) :=
  match _cache_get_query cache now ttl q with
  | some item => if item ≠ [] then Except.ok [item] else enrichResolve env cache now ttl q
  | none => enrichResolve env cache now ttl q

/-! Theorems for the frozen claims. -/

unseal Rat.add Rat.mul Rat.inv Rat.sub in
/-- Claim C9: on the input text `"1,931–2,055 kg"` the weight parser returns
`weight_kg_min=1931.0`, `weight_kg_max=2055.0`, `weight_kg=2055.0` (max as
representative) and `weight_lb=round(2055.0*2.20462, 1)=4530.5`; the full
output also carries the averages and pound bounds the source computes. -/
theorem C9_weight_example :
    _parse_weight "1,931–2,055 kg" = Except.ok
      [("weight_kg_min", SpecVal.num 1931),
       ("weight_kg_max", SpecVal.num 2055),
       ("weight_kg_avg", SpecVal.num 1993),
       ("weight_lb_min", SpecVal.num (42571/10)),
       ("weight_lb_max", SpecVal.num (9061/2)),
       ("weight_lb_avg", SpecVal.num (21969/5)),
       ("weight_kg", SpecVal.num 2055),
       ("weight_lb", SpecVal.num (9061/2))] := by decide

unseal Rat.add Rat.mul Rat.inv Rat.sub in
/-- Claim C2, counterexample: the power parser raises `ValueError` on the
input `"1.2.3 kW"` — the number class of the regex admits a second decimal
point, and `float("1.2.3")` fails — so the parsers are not exception-free. -/
theorem C2_counterexample :
    _parse_power "1.2.3 kW" = Except.error PyErr.valueError := by decide

unseal Rat.add Rat.mul Rat.inv Rat.sub in
/-- Claim C5, counterexample: the torque parser matches two Nm values in
`"100 Nm 200 Nm"` yet its output has min/max and representative fields only —
no `torque_nm_avg` or `torque_lbft_avg` key exists. -/
theorem C5_counterexample :
    (torqueNmGroups "100 Nm 200 Nm").length = 2 ∧
    _parse_torque "100 Nm 200 Nm" = Except.ok
      [("torque_nm_min", SpecVal.num 100),
       ("torque_nm_max", SpecVal.num 200),
       ("torque_nm", SpecVal.num 200),
       ("torque_lbft_min", SpecVal.num (369/5)),
       ("torque_lbft_max", SpecVal.num (295/2)),
       ("torque_lbft", SpecVal.num (295/2))] ∧
    pyGet?
      [("torque_nm_min", SpecVal.num 100),
       ("torque_nm_max", SpecVal.num 200),
       ("torque_nm", SpecVal.num 200),
       ("torque_lbft_min", SpecVal.num (369/5)),
       ("torque_lbft_max", SpecVal.num (295/2)),
       ("torque_lbft", SpecVal.num (295/2))] "torque_nm_avg" = none := by decide

/-- Claim C3: for query "Nissan Skyline R34" and candidate
"Nissan Skyline R33" the code assigns the full model bonus of 6, although the
query's digit-bearing token `r34` does not occur among the candidate's
tokens — the line-565 test `any(t in qtokens for t in cand_tokens)` accepts
any shared token (here `nissan`), contradicting the claimed exact-digit-token
condition under which this candidate should get only 1. -/
theorem C3_code_bug_eval :
    tokenize "Nissan Skyline R33" = ["nissan", "skyline", "r33"] ∧
    ¬ ("r34" ∈ tokenize "Nissan Skyline R33") ∧
    model_bonus (tokenize "Nissan Skyline R34") (tokenize "Nissan Skyline R33") = 6 := by
  decide

unseal Rat.add Rat.mul Rat.inv Rat.sub in
/-- Claim C1: on a no-match query (no candidates or no token overlap, empty
cache) the enrichment path raises `AttributeError` instead of returning the
empty list: line 635 evaluates `_cache_get(title)` with `title = None`, and
`None.lower()` raises before the line-643 `if not title: return []` guard. -/
theorem C1_code_bug_eval :
    enrich ⟨fun _ => [], fun _ => none, fun _ => [], fun _ => none,
            fun _ => none, fun _ => none⟩ [] 0 7 "xyzzy asdf" =
      Except.error PyErr.attributeError ∧
    enrich ⟨fun _ => ["Unrelated Page"], fun _ => some "Unrelated Page",
            fun _ => [], fun _ => none, fun _ => none, fun _ => none⟩ [] 0 7 "xyzzy asdf" =
      Except.error PyErr.attributeError := by decide

unseal Rat.add Rat.mul Rat.inv Rat.sub in
/-- Claim C7, counterexample: two queries with equal token multisets but
different token order normalise to different strings and hence different
cache keys; an entry stored under one is not returned for the other. -/
theorem C7_counterexample :
    Multiset.ofList (tokenize "skyline nissan") = Multiset.ofList (tokenize "nissan skyline") ∧
    _normalize_query "skyline nissan" ≠ _normalize_query "nissan skyline" ∧
    _cache_get_query
      (_cache_set_query [] 0 "skyline nissan" [("name", ItemVal.str "x")]) 0 7
      "nissan skyline" = none ∧
    _cache_get_query
      (_cache_set_query [] 0 "skyline nissan" [("name", ItemVal.str "x")]) 0 7
      "skyline nissan" = some [("name", ItemVal.str "x")] := by decide

/-- Claim C6, counterexample: a quantity claim whose amount `"abc"` cannot be
parsed is not omitted — the extractor still emits an entry for its property,
with a null amount. -/
theorem C6_counterexample :
    wikidata_extract_quantity_claims (fun _ => none)
      (some ⟨[("P2067", [some (WdDataValue.quantity (some "abc") none)])], none⟩) =
      [("P2067", [⟨none, none, none⟩])] := by decide

/-- Claim C4: the non-vehicle penalty is 0 for every candidate and every
environment: the dict `wikidata_fetch_claims_for_title` builds has only the
keys `qid`, `quantities` and `linked`, so the line-604 read of
`'description'` always yields the empty string and the block-list test never
fires — the claimed penalty of 50 is unreachable. -/
theorem C4_code_bug_eval :
    (∀ wd : Option WdResult, non_vehicle_penalty wd = 0) ∧
    (∀ (env : KSEnv) (cand : String),
      non_vehicle_penalty
        (wikidata_fetch_claims_for_title env.entityForTitle env.getEntity cand) = 0) := by
  constructor
  · intro wd
    cases wd with
    | none => rfl
    | some w => rfl
  · intro env cand
    cases wikidata_fetch_claims_for_title env.entityForTitle env.getEntity cand with
    | none => rfl
    | some w => rfl

/-- Claim C10: the attach of the raw structured-claim block never takes
effect — the line-740 statement reads `synth` before the line-744 assignment
binds it, raising `NameError`, which the enclosing `except` swallows — so
every item synthesised (and then cached and returned) by the enrichment path
has exactly the keys id, name, manufacturer, year, slug, specs, description
and `_wiki`, and never a `_wikidata` key. -/
theorem C10_synth_shape :
    (∀ (wd : Option WdResult) (specs1 : Fields),
      (wdMergeBlock wd specs1 none).2 = none) ∧
    (∀ (env : KSEnv) (q : String) (title : Option String) (items : List Item),
      afterTitle env q title = Except.ok items →
      ∀ it ∈ items,
        it.map Prod.fst =
          ["id", "name", "manufacturer", "year", "slug", "specs",
           "description", "_wiki"] ∧
        alistGet? it "_wikidata" = none) := by
  constructor
  · intro wd specs1
    cases wd with
    | none => rfl
    | some w =>
      by_cases hq : w.quantities = []
      · simp [wdMergeBlock, hq]
      · simp [wdMergeBlock, hq, attachWd]
  · intro env q title items hat it hmem
    cases title with
    | none =>
      simp only [afterTitle] at hat
      injection hat with h
      subst h
      cases hmem
    | some t =>
      simp only [afterTitle] at hat
      cases hsum : env.fetchSummary t with
      | none =>
        rw [hsum] at hat
        injection hat with h
        subst h
        cases hmem
      | some summary =>
        rw [hsum] at hat
        injection hat with h
        subst h
        rcases List.mem_singleton.mp hmem with rfl
        exact ⟨rfl, rfl⟩

/-! Helper lemmas on the dict operations and `liftNums`. -/

theorem alistGet?_alistSet_same {α : Type} (d : List (String × α)) (k : String) (v : α) :
    alistGet? (alistSet d k v) k = some v := by
  induction d with
  | nil => simp [alistSet, alistGet?]
  | cons e rest ih =>
    obtain ⟨k2, v2⟩ := e
    simp only [alistSet]
    by_cases h : k2 = k
    · rw [if_pos h]; simp [alistGet?]
    · rw [if_neg h]
      simp only [alistGet?]
      rw [if_neg (fun hh => h hh.symm)]
      exact ih

theorem alistGet?_alistSet_ne {α : Type} (d : List (String × α)) (k k2 : String) (v : α)
    (h : k2 ≠ k) : alistGet? (alistSet d k v) k2 = alistGet? d k2 := by
  induction d with
  | nil => simp [alistSet, alistGet?, if_neg h]
  | cons e rest ih =>
    obtain ⟨k3, v3⟩ := e
    simp only [alistSet]
    by_cases h3 : k3 = k
    · rw [if_pos h3]
      simp only [alistGet?]
      rw [if_neg h, if_neg (h3 ▸ h)]
    · rw [if_neg h3]
      simp only [alistGet?]
      by_cases h4 : k2 = k3
      · rw [if_pos h4, if_pos h4]
      · rw [if_neg h4, if_neg h4]
        exact ih

theorem alistGet?_append {α : Type} (d1 d2 : List (String × α)) (q : String) :
    alistGet? (d1 ++ d2) q =
      (match alistGet? d1 q with
       | some v => some v
       | none => alistGet? d2 q) := by
  induction d1 with
  | nil => simp [alistGet?]
  | cons e rest ih =>
    obtain ⟨k, v⟩ := e
    simp only [List.cons_append, alistGet?]
    by_cases h : q = k
    · rw [if_pos h, if_pos h]
    · rw [if_neg h, if_neg h]
      exact ih

theorem liftNums_ok_of_all (gs : List (List Char))
    (h : gs.all (fun g => (to_num g).isSome) = true) :
    ∃ vs, liftNums gs = Except.ok vs := by
  induction gs with
  | nil => exact ⟨[], rfl⟩
  | cons g rest ih =>
    simp only [List.all_cons, Bool.and_eq_true] at h
    obtain ⟨vs, hvs⟩ := ih h.2
    obtain ⟨v, hv⟩ := Option.isSome_iff_exists.mp h.1
    refine ⟨v :: vs, ?_⟩
    simp only [liftNums, hv, hvs]
    rfl

/-- Invariant step for the best-candidate update of the scorer: a candidate
only becomes `best` in a branch where its token overlap is nonzero. -/
theorem best_upd {qtokens : List String} {cand : String} {best : Option String × ℤ}
    (s : ℤ) (hcand : 1 ≤ interCard qtokens (tokenize cand))
    (hbest : ∀ c, best.1 = some c → 1 ≤ interCard qtokens (tokenize c)) :
    ∀ c, ((if s > best.2 then ((some cand : Option String), s) else best)).1 = some c →
      1 ≤ interCard qtokens (tokenize c) := by
  intro c hc
  by_cases hgt : s > best.2
  · rw [if_pos hgt] at hc
    simp only at hc
    cases hc
    exact hcand
  · rw [if_neg hgt] at hc
    exact hbest c hc

/-- Invariant of the candidate loop: whichever title ends up in `best` has a
nonzero token overlap with the query tokens. -/
theorem scoreLoop_overlap (env : KSEnv) (cache : Cache) (now ttl : ℚ)
    (qtokens : List String) :
    ∀ (cands : List String) (best : Option String × ℤ),
      (∀ c, best.1 = some c → 1 ≤ interCard qtokens (tokenize c)) →
      ∀ c, (scoreLoop env cache now ttl qtokens cands best).1 = some c →
        1 ≤ interCard qtokens (tokenize c) := by
  intro cands
  induction cands with
  | nil =>
    intro best hbest c hc
    exact hbest c hc
  | cons cand rest ih =>
    intro best hbest c hc
    simp only [scoreLoop] at hc
    by_cases hts : interCard qtokens (tokenize cand) = 0
    · rw [if_pos hts] at hc
      exact ih best hbest c hc
    · rw [if_neg hts] at hc
      have hcand : 1 ≤ interCard qtokens (tokenize cand) := by omega
      cases h2 : _cache_get_str cache now ttl cand with
      | none =>
        simp only [h2] at hc
        exact ih _ (best_upd _ hcand hbest) c hc
      | some item =>
        simp only [h2] at hc
        by_cases hne : item ≠ []
        · rw [if_pos hne] at hc
          exact ih _ (best_upd _ hcand hbest) c hc
        · rw [if_neg hne] at hc
          exact ih _ (best_upd _ hcand hbest) c hc

/-- Claim C8: the scorer never selects a candidate whose token set is
disjoint from the query's (candidates with zero overlap are skipped before
any richness signal is consulted), and the single-top-hit fallback accepts
the top hit only when it shares a token with the query; hence any selected
title shares at least one token with the query. -/
theorem C8_token_overlap_required (env : KSEnv) (cache : Cache) (now ttl : ℚ)
    (q t : String) (h : score_and_select env cache now ttl q = some t) :
    1 ≤ interCard (tokenize q) (tokenize t) := by
  simp only [score_and_select] at h
  cases hl : (if env.searchCandidates q ≠ [] then
      (scoreLoop env cache now ttl (tokenize q) (env.searchCandidates q) (none, -1)).1
    else none) with
  | some t0 =>
    rw [hl] at h
    simp only at h
    injection h with heq
    subst heq
    by_cases hcand : env.searchCandidates q ≠ []
    · rw [if_pos hcand] at hl
      exact scoreLoop_overlap env cache now ttl (tokenize q) (env.searchCandidates q)
        (none, -1) (fun c hc => by cases hc) t0 hl
    · rw [if_neg hcand] at hl
      cases hl
  | none =>
    rw [hl] at h
    simp only at h
    cases htop : env.topHit q with
    | none =>
      simp only [htop] at h
      cases h
    | some top =>
      simp only [htop] at h
      by_cases hov : interCard (tokenize q) (tokenize top) > 0
      · rw [if_pos hov] at h
        injection h with heq
        subst heq
        omega
      · rw [if_neg hov] at h
        cases h

/-- Witness for C8 at a concrete environment: the query "alpha" selects the
sole candidate "Alpha One", and they share the token `alpha`. -/
theorem C8_witness :
    score_and_select
      ⟨fun _ => ["Alpha One"], fun _ => none, fun _ => [], fun _ => none,
       fun _ => none, fun _ => none⟩ [] 0 7 "alpha" = some "Alpha One" ∧
    1 ≤ interCard (tokenize "alpha") (tokenize "Alpha One") :=
  ⟨by decide,
   C8_token_overlap_required
     ⟨fun _ => ["Alpha One"], fun _ => none, fun _ => [], fun _ => none,
      fun _ => none, fun _ => none⟩ [] 0 7 "alpha" "Alpha One" (by decide)⟩

/-- Claim C7 (amended): two queries with the same token sequence produce the
same normalised form and the same cache key, so they are interchangeable for
query-cache reads, and an entry stored under one is returned for the other
while its age does not exceed the TTL. -/
theorem C7_amended (q1 q2 : String) (h : tokenize q1 = tokenize q2) :
    _normalize_query q1 = _normalize_query q2 ∧
    (∀ (cache : Cache) (now ttl : ℚ),
      _cache_get_query cache now ttl q1 = _cache_get_query cache now ttl q2) ∧
    (∀ (cache : Cache) (ts tg ttl : ℚ) (item : Item),
      ¬ ((tg - ts) / 86400 > ttl) →
      _cache_get_query (_cache_set_query cache ts q1 item) tg ttl q2 = some item) := by
  have hn : _normalize_query q1 = _normalize_query q2 := by
    unfold _normalize_query
    rw [h]
  refine ⟨hn, ?_, ?_⟩
  · intro cache now ttl
    unfold _cache_get_query
    rw [hn]
  · intro cache ts tg ttl item hle
    unfold _cache_get_query _cache_set_query
    rw [hn, alistGet?_alistSet_same]
    simp only
    rw [if_neg hle]

unseal Rat.add Rat.mul Rat.inv Rat.sub in
/-- Witness for C7 (amended) at concrete queries differing in case and
spacing but with the same token sequence. -/
theorem C7_witness :
    tokenize "Nissan  Skyline" = tokenize "nissan skyline" ∧
    _normalize_query "Nissan  Skyline" = _normalize_query "nissan skyline" ∧
    _cache_get_query
      (_cache_set_query [] 0 "Nissan  Skyline" [("name", ItemVal.str "x")]) 5 7
      "nissan skyline" = some [("name", ItemVal.str "x")] :=
  ⟨by decide,
   (C7_amended "Nissan  Skyline" "nissan skyline" (by decide)).1,
   (C7_amended "Nissan  Skyline" "nissan skyline" (by decide)).2.2 [] 0 5 7
     [("name", ItemVal.str "x")] (by decide)⟩

/-- Bind of a successful `Except` computation. -/
theorem exc_bind_ok {ε α β : Type} (a : α) (f : α → Except ε β) :
    (Except.ok a >>= f : Except ε β) = f a := rfl

/-- Bind of a failed `Except` computation. -/
theorem exc_bind_error {ε α β : Type} (e : ε) (f : α → Except ε β) :
    (Except.error e >>= f : Except ε β) = Except.error e := rfl

/-- Claim C2 (amended): each of the four unit parsers terminates and returns
a mapping, empty on empty input or when no numeric-token-plus-unit-marker
pattern matches; it never raises provided every matched number group parses
as a float (at most one decimal point once separators are stripped) —
without that proviso a parser raises `ValueError`. -/
theorem C2_amended (text : String) :
    ((powerKwGroups text).all (fun g => (to_num g).isSome) = true →
     (powerHpGroups text).all (fun g => (to_num g).isSome) = true →
     ∃ m, _parse_power text = Except.ok m) ∧
    (powerKwGroups text = [] → powerHpGroups text = [] →
      _parse_power text = Except.ok []) ∧
    (((weightRangePairs text).flatMap (fun p => [p.1, p.2])).all
        (fun g => (to_num g).isSome) = true →
     (weightKgGroups text).all (fun g => (to_num g).isSome) = true →
     (weightLbGroups text).all (fun g => (to_num g).isSome) = true →
     ∃ m, _parse_weight text = Except.ok m) ∧
    (weightRangePairs text = [] → weightKgGroups text = [] →
      weightLbGroups text = [] → _parse_weight text = Except.ok []) ∧
    ((dispLGroups text).all (fun g => (to_num g).isSome) = true →
     (dispCcGroups text).all (fun g => (to_num g).isSome) = true →
     ∃ m, _parse_displacement text = Except.ok m) ∧
    (dispLGroups text = [] → dispCcGroups text = [] →
      _parse_displacement text = Except.ok []) ∧
    ((torqueNmGroups text).all (fun g => (to_num g).isSome) = true →
     (torqueLbftGroups text).all (fun g => (to_num g).isSome) = true →
     ∃ m, _parse_torque text = Except.ok m) ∧
    (torqueNmGroups text = [] → torqueLbftGroups text = [] →
      _parse_torque text = Except.ok []) ∧
    (text = "" →
      _parse_power text = Except.ok [] ∧ _parse_weight text = Except.ok [] ∧
      _parse_displacement text = Except.ok [] ∧ _parse_torque text = Except.ok []) := by
  refine ⟨?_, ?_, ?_, ?_, ?_, ?_, ?_, ?_, ?_⟩
  · intro h1 h2
    by_cases ht : text = ""
    · exact ⟨[], by unfold _parse_power; rw [if_pos ht]⟩
    · obtain ⟨ks, hks⟩ := liftNums_ok_of_all _ h1
      obtain ⟨hs, hhs⟩ := liftNums_ok_of_all _ h2
      unfold _parse_power
      rw [if_neg ht, hks]
      simp only [exc_bind_ok]
      rw [hhs]
      simp only [exc_bind_ok]
      exact ⟨_, rfl⟩
  · intro h1 h2
    by_cases ht : text = ""
    · unfold _parse_power; rw [if_pos ht]
    · unfold _parse_power
      rw [if_neg ht, h1, h2]
      rfl
  · intro h1 h2 h3
    by_cases ht : text = ""
    · exact ⟨[], by unfold _parse_weight; rw [if_pos ht]⟩
    · obtain ⟨rs, hrs⟩ := liftNums_ok_of_all _ h1
      obtain ⟨ss, hss⟩ := liftNums_ok_of_all _ h2
      obtain ⟨ls, hls⟩ := liftNums_ok_of_all _ h3
      unfold _parse_weight
      rw [if_neg ht, hrs]
      simp only [exc_bind_ok]
      rw [hss]
      simp only [exc_bind_ok]
      by_cases hk : uniqueFirst (rs ++ ss) ≠ []
      · rw [if_pos hk]
        exact ⟨_, rfl⟩
      · rw [if_neg hk, hls]
        simp only [exc_bind_ok]
        by_cases hl2 : ls ≠ []
        · rw [if_pos hl2]
          exact ⟨_, rfl⟩
        · rw [if_neg hl2]
          exact ⟨[], rfl⟩
  · intro h1 h2 h3
    by_cases ht : text = ""
    · unfold _parse_weight; rw [if_pos ht]
    · unfold _parse_weight
      rw [if_neg ht, h1, h2, h3]
      rfl
  · intro h1 h2
    by_cases ht : text = ""
    · exact ⟨[], by unfold _parse_displacement; rw [if_pos ht]⟩
    · obtain ⟨ls, hls⟩ := liftNums_ok_of_all _ h1
      obtain ⟨cs, hcs⟩ := liftNums_ok_of_all _ h2
      unfold _parse_displacement
      rw [if_neg ht, hls]
      simp only [exc_bind_ok]
      rw [hcs]
      simp only [exc_bind_ok]
      by_cases hl2 : ls ≠ []
      · rw [if_pos hl2]; exact ⟨_, rfl⟩
      · rw [if_neg hl2]
        by_cases hc2 : cs ≠ []
        · rw [if_pos hc2]; exact ⟨_, rfl⟩
        · rw [if_neg hc2]; exact ⟨[], rfl⟩
  · intro h1 h2
    by_cases ht : text = ""
    · unfold _parse_displacement; rw [if_pos ht]
    · unfold _parse_displacement
      rw [if_neg ht, h1, h2]
      rfl
  · intro h1 h2
    by_cases ht : text = ""
    · exact ⟨[], by unfold _parse_torque; rw [if_pos ht]⟩
    · obtain ⟨ns, hns⟩ := liftNums_ok_of_all _ h1
      obtain ⟨fs, hfs⟩ := liftNums_ok_of_all _ h2
      unfold _parse_torque
      rw [if_neg ht, hns]
      simp only [exc_bind_ok]
      rw [hfs]
      simp only [exc_bind_ok]
      by_cases hn2 : ns ≠ []
      · rw [if_pos hn2]; exact ⟨_, rfl⟩
      · rw [if_neg hn2]
        by_cases hf2 : fs ≠ []
        · rw [if_pos hf2]; exact ⟨_, rfl⟩
        · rw [if_neg hf2]; exact ⟨[], rfl⟩
  · intro h1 h2
    by_cases ht : text = ""
    · unfold _parse_torque; rw [if_pos ht]
    · unfold _parse_torque
      rw [if_neg ht, h1, h2]
      rfl
  · intro ht
    refine ⟨?_, ?_, ?_, ?_⟩
    · unfold _parse_power; rw [if_pos ht]
    · unfold _parse_weight; rw [if_pos ht]
    · unfold _parse_displacement; rw [if_pos ht]
    · unfold _parse_torque; rw [if_pos ht]

unseal Rat.add Rat.mul Rat.inv Rat.sub in
/-- Witness for C2 (amended): the power parser succeeds on well-formed text
and the torque parser returns the empty mapping on text with no torque
pattern. -/
theorem C2_witness :
    (∃ m, _parse_power "268 hp (200 kW)" = Except.ok m) ∧
    _parse_torque "no units here" = Except.ok [] :=
  ⟨(C2_amended "268 hp (200 kW)").1 (by decide) (by decide),
   (C2_amended "no units here").2.2.2.2.2.2.2.1 (by decide) (by decide)⟩

/-- Claim C5 (amended): when more than one value is matched, the power and
weight parsers emit min, max AND a 1-decimal-rounded average for the matched
unit (and the converted unit); the displacement and torque parsers emit only
min/max and representatives — they never produce an average field at all. -/
theorem C5_amended (text : String) (m : Fields) :
    (∀ ks, _parse_power text = Except.ok m →
      liftNums (powerKwGroups text) = Except.ok ks → ks ≠ [] →
      pyGet? m "power_kw_min" = some (SpecVal.num (pyRound (qmin ks) 1)) ∧
      pyGet? m "power_kw_max" = some (SpecVal.num (pyRound (qmax ks) 1)) ∧
      pyGet? m "power_kw_avg" = some (SpecVal.num (pyRound (qavg ks) 1))) ∧
    (∀ hs, _parse_power text = Except.ok m →
      liftNums (powerHpGroups text) = Except.ok hs → hs ≠ [] →
      pyGet? m "power_hp_min" = some (SpecVal.num (pyRound (qmin hs) 1)) ∧
      pyGet? m "power_hp_max" = some (SpecVal.num (pyRound (qmax hs) 1)) ∧
      pyGet? m "power_hp_avg" = some (SpecVal.num (pyRound (qavg hs) 1))) ∧
    (∀ rs ss, _parse_weight text = Except.ok m →
      liftNums ((weightRangePairs text).flatMap (fun p => [p.1, p.2])) = Except.ok rs →
      liftNums (weightKgGroups text) = Except.ok ss →
      uniqueFirst (rs ++ ss) ≠ [] →
      pyGet? m "weight_kg_min" =
        some (SpecVal.num (pyRound (qmin (uniqueFirst (rs ++ ss))) 1)) ∧
      pyGet? m "weight_kg_max" =
        some (SpecVal.num (pyRound (qmax (uniqueFirst (rs ++ ss))) 1)) ∧
      pyGet? m "weight_kg_avg" =
        some (SpecVal.num (pyRound (qavg (uniqueFirst (rs ++ ss))) 1))) ∧
    (∀ rs ss ls, _parse_weight text = Except.ok m →
      liftNums ((weightRangePairs text).flatMap (fun p => [p.1, p.2])) = Except.ok rs →
      liftNums (weightKgGroups text) = Except.ok ss →
      uniqueFirst (rs ++ ss) = [] →
      liftNums (weightLbGroups text) = Except.ok ls → ls ≠ [] →
      pyGet? m "weight_lb_min" = some (SpecVal.num (pyRound (qmin ls) 1)) ∧
      pyGet? m "weight_lb_max" = some (SpecVal.num (pyRound (qmax ls) 1)) ∧
      pyGet? m "weight_lb_avg" = some (SpecVal.num (pyRound (qavg ls) 1))) ∧
    (_parse_displacement text = Except.ok m →
      pyGet? m "displacement_l_avg" = none ∧ pyGet? m "displacement_cc_avg" = none) ∧
    (_parse_torque text = Except.ok m →
      pyGet? m "torque_nm_avg" = none ∧ pyGet? m "torque_lbft_avg" = none) := by
  refine ⟨?_, ?_, ?_, ?_, ?_, ?_⟩
  · intro ks hok hks hne
    by_cases ht : text = ""
    · exfalso
      rw [ht] at hks
      have h0 : liftNums (powerKwGroups "") = Except.ok ([] : List ℚ) := by decide
      rw [h0] at hks
      injection hks with h
      exact hne h.symm
    · unfold _parse_power at hok
      rw [if_neg ht, hks] at hok
      simp only [exc_bind_ok] at hok
      cases hhp : liftNums (powerHpGroups text) with
      | error e =>
        rw [hhp] at hok
        simp only [exc_bind_error] at hok
        exact Except.noConfusion hok
      | ok hs =>
        rw [hhp] at hok
        simp only [exc_bind_ok] at hok
        injection hok with hm
        subst hm
        rw [if_pos hne]
        exact ⟨rfl, rfl, rfl⟩
  · intro hs hok hhs hne
    by_cases ht : text = ""
    · exfalso
      rw [ht] at hhs
      have h0 : liftNums (powerHpGroups "") = Except.ok ([] : List ℚ) := by decide
      rw [h0] at hhs
      injection hhs with h
      exact hne h.symm
    · unfold _parse_power at hok
      rw [if_neg ht] at hok
      cases hkw : liftNums (powerKwGroups text) with
      | error e =>
        rw [hkw] at hok
        simp only [exc_bind_error] at hok
        exact Except.noConfusion hok
      | ok ks =>
        rw [hkw] at hok
        simp only [exc_bind_ok] at hok
        rw [hhs] at hok
        simp only [exc_bind_ok] at hok
        injection hok with hm
        subst hm
        rw [if_pos hne]
        by_cases hkne : ks ≠ []
        · rw [if_pos hkne]
          exact ⟨rfl, rfl, rfl⟩
        · rw [if_neg hkne]
          exact ⟨rfl, rfl, rfl⟩
  · intro rs ss hok hrs hss hne
    by_cases ht : text = ""
    · exfalso
      rw [ht] at hrs hss
      have h0 : liftNums ((weightRangePairs "").flatMap (fun p => [p.1, p.2])) =
          Except.ok ([] : List ℚ) := by decide
      have h1 : liftNums (weightKgGroups "") = Except.ok ([] : List ℚ) := by decide
      rw [h0] at hrs
      rw [h1] at hss
      injection hrs with hr
      injection hss with hs2
      apply hne
      subst hr
      subst hs2
      decide
    · unfold _parse_weight at hok
      rw [if_neg ht, hrs] at hok
      simp only [exc_bind_ok] at hok
      rw [hss] at hok
      simp only [exc_bind_ok] at hok
      rw [if_pos hne] at hok
      injection hok with hm
      subst hm
      exact ⟨rfl, rfl, rfl⟩
  · intro rs ss ls hok hrs hss hkE hls hne
    by_cases ht : text = ""
    · exfalso
      rw [ht] at hls
      have h0 : liftNums (weightLbGroups "") = Except.ok ([] : List ℚ) := by decide
      rw [h0] at hls
      injection hls with h
      exact hne h.symm
    · unfold _parse_weight at hok
      rw [if_neg ht, hrs] at hok
      simp only [exc_bind_ok] at hok
      rw [hss] at hok
      simp only [exc_bind_ok] at hok
      rw [if_neg (fun hcon => hcon hkE)] at hok
      rw [hls] at hok
      simp only [exc_bind_ok] at hok
      rw [if_pos hne] at hok
      injection hok with hm
      subst hm
      exact ⟨rfl, rfl, rfl⟩
  · intro hok
    by_cases ht : text = ""
    · unfold _parse_displacement at hok
      rw [if_pos ht] at hok
      injection hok with hm
      subst hm
      exact ⟨rfl, rfl⟩
    · unfold _parse_displacement at hok
      rw [if_neg ht] at hok
      cases hls : liftNums (dispLGroups text) with
      | error e =>
        rw [hls] at hok
        simp only [exc_bind_error] at hok
        exact Except.noConfusion hok
      | ok ls =>
        rw [hls] at hok
        simp only [exc_bind_ok] at hok
        cases hcc : liftNums (dispCcGroups text) with
        | error e =>
          rw [hcc] at hok
          simp only [exc_bind_error] at hok
          exact Except.noConfusion hok
        | ok cs =>
          rw [hcc] at hok
          simp only [exc_bind_ok] at hok
          by_cases hl2 : ls ≠ []
          · rw [if_pos hl2] at hok
            injection hok with hm
            subst hm
            exact ⟨rfl, rfl⟩
          · rw [if_neg hl2] at hok
            by_cases hc2 : cs ≠ []
            · rw [if_pos hc2] at hok
              injection hok with hm
              subst hm
              exact ⟨rfl, rfl⟩
            · rw [if_neg hc2] at hok
              injection hok with hm
              subst hm
              exact ⟨rfl, rfl⟩
  · intro hok
    by_cases ht : text = ""
    · unfold _parse_torque at hok
      rw [if_pos ht] at hok
      injection hok with hm
      subst hm
      exact ⟨rfl, rfl⟩
    · unfold _parse_torque at hok
      rw [if_neg ht] at hok
      cases hns : liftNums (torqueNmGroups text) with
      | error e =>
        rw [hns] at hok
        simp only [exc_bind_error] at hok
        exact Except.noConfusion hok
      | ok ns =>
        rw [hns] at hok
        simp only [exc_bind_ok] at hok
        cases hfs : liftNums (torqueLbftGroups text) with
        | error e =>
          rw [hfs] at hok
          simp only [exc_bind_error] at hok
          exact Except.noConfusion hok
        | ok fs =>
          rw [hfs] at hok
          simp only [exc_bind_ok] at hok
          by_cases hn2 : ns ≠ []
          · rw [if_pos hn2] at hok
            injection hok with hm
            subst hm
            exact ⟨rfl, rfl⟩
          · rw [if_neg hn2] at hok
            by_cases hf2 : fs ≠ []
            · rw [if_pos hf2] at hok
              injection hok with hm
              subst hm
              exact ⟨rfl, rfl⟩
            · rw [if_neg hf2] at hok
              injection hok with hm
              subst hm
              exact ⟨rfl, rfl⟩

unseal Rat.add Rat.mul Rat.inv Rat.sub in
/-- Witness for C5 (amended) at concrete inputs: two kW values yield a
1-decimal average field, and two Nm values yield no torque average field. -/
theorem C5_witness :
    pyGet?
      [("power_kw_min", SpecVal.num 100), ("power_kw_max", SpecVal.num 200),
       ("power_kw_avg", SpecVal.num 150), ("power_kw", SpecVal.num 200),
       ("power_hp", SpecVal.num (1341/5))] "power_kw_avg" =
      some (SpecVal.num (pyRound (qavg [100, 200]) 1)) ∧
    (pyGet?
      [("torque_nm_min", SpecVal.num 100), ("torque_nm_max", SpecVal.num 200),
       ("torque_nm", SpecVal.num 200), ("torque_lbft_min", SpecVal.num (369/5)),
       ("torque_lbft_max", SpecVal.num (295/2)),
       ("torque_lbft", SpecVal.num (295/2))] "torque_nm_avg" = none ∧
     pyGet?
      [("torque_nm_min", SpecVal.num 100), ("torque_nm_max", SpecVal.num 200),
       ("torque_nm", SpecVal.num 200), ("torque_lbft_min", SpecVal.num (369/5)),
       ("torque_lbft_max", SpecVal.num (295/2)),
       ("torque_lbft", SpecVal.num (295/2))] "torque_lbft_avg" = none) :=
  ⟨((C5_amended "100 kW 200 kW"
      [("power_kw_min", SpecVal.num 100), ("power_kw_max", SpecVal.num 200),
       ("power_kw_avg", SpecVal.num 150), ("power_kw", SpecVal.num 200),
       ("power_hp", SpecVal.num (1341/5))]).1 [100, 200]
      (by decide) (by decide) (by decide)).2.2,
   (C5_amended "100 Nm 200 Nm"
      [("torque_nm_min", SpecVal.num 100), ("torque_nm_max", SpecVal.num 200),
       ("torque_nm", SpecVal.num 200), ("torque_lbft_min", SpecVal.num (369/5)),
       ("torque_lbft_max", SpecVal.num (295/2)),
       ("torque_lbft", SpecVal.num (295/2))]).2.2.2.2.2 (by decide)⟩

/-! Machinery for claim C6: per-property amount lists of the extractor. -/

/-- Amounts recorded under one property of the extractor's output. -/
def amountsAt (out : List (String × List QEntry)) (prop : String) : List (Option ℚ) :=
  ((alistGet? out prop).getD []).map QEntry.amount

/-- Claim-side view: the parsed amount of every quantity-typed claim of a
claim list, in claim order (`none` for an unparseable amount). -/
def quantityAmountsSpec (cs : List (Option WdDataValue)) : List (Option ℚ) :=
  cs.filterMap (fun c =>
    match c with
    | some (WdDataValue.quantity a _) => some (parseAmount a)
    | _ => none)

theorem amountsAt_qcStep_same (g : String → Option WdEntity) (prop : String)
    (st : List (String × List QEntry) × List (String × Option String))
    (c : Option WdDataValue) :
    amountsAt (qcStep g prop st c).1 prop =
      amountsAt st.1 prop ++ quantityAmountsSpec [c] := by
  cases c with
  | none => simp [qcStep, quantityAmountsSpec, amountsAt]
  | some dv =>
    cases dv with
    | quantity a u =>
      simp only [qcStep]
      cases hget : alistGet? st.1 prop with
      | some l =>
        simp only [hget]
        unfold amountsAt
        rw [alistGet?_alistSet_same, hget]
        simp [quantityAmountsSpec]
      | none =>
        simp only [hget]
        unfold amountsAt
        rw [alistGet?_append, hget]
        simp [alistGet?, quantityAmountsSpec]
    | entityId i => simp [qcStep, quantityAmountsSpec, amountsAt]
    | otherType => simp [qcStep, quantityAmountsSpec, amountsAt]

theorem amountsAt_qcStep_other (g : String → Option WdEntity) (prop2 prop : String)
    (h : prop ≠ prop2)
    (st : List (String × List QEntry) × List (String × Option String))
    (c : Option WdDataValue) :
    amountsAt (qcStep g prop2 st c).1 prop = amountsAt st.1 prop := by
  cases c with
  | none => rfl
  | some dv =>
    cases dv with
    | quantity a u =>
      simp only [qcStep]
      cases hget : alistGet? st.1 prop2 with
      | some l =>
        simp only [hget]
        unfold amountsAt
        rw [alistGet?_alistSet_ne _ _ _ _ h]
      | none =>
        simp only [hget]
        unfold amountsAt
        rw [alistGet?_append]
        cases h3 : alistGet? st.1 prop with
        | some v => simp [h3]
        | none => simp [h3, alistGet?, if_neg h]
    | entityId i => rfl
    | otherType => rfl

theorem amountsAt_fold_same (g : String → Option WdEntity) (prop : String) :
    ∀ (cs : List (Option WdDataValue))
      (st : List (String × List QEntry) × List (String × Option String)),
      amountsAt (cs.foldl (qcStep g prop) st).1 prop =
        amountsAt st.1 prop ++ quantityAmountsSpec cs := by
  intro cs
  induction cs with
  | nil =>
    intro st
    simp [quantityAmountsSpec]
  | cons c rest ih =>
    intro st
    simp only [List.foldl_cons]
    rw [ih (qcStep g prop st c), amountsAt_qcStep_same, List.append_assoc]
    congr 1
    show quantityAmountsSpec [c] ++ quantityAmountsSpec rest = quantityAmountsSpec (c :: rest)
    unfold quantityAmountsSpec
    rw [← List.filterMap_append]
    rfl

theorem amountsAt_fold_other (g : String → Option WdEntity) (prop2 prop : String)
    (h : prop ≠ prop2) :
    ∀ (cs : List (Option WdDataValue))
      (st : List (String × List QEntry) × List (String × Option String)),
      amountsAt (cs.foldl (qcStep g prop2) st).1 prop = amountsAt st.1 prop := by
  intro cs
  induction cs with
  | nil => intro st; rfl
  | cons c rest ih =>
    intro st
    simp only [List.foldl_cons]
    rw [ih (qcStep g prop2 st c), amountsAt_qcStep_other g prop2 prop h]

theorem amountsAt_outer_other (g : String → Option WdEntity) (prop : String) :
    ∀ (claims : List (String × List (Option WdDataValue)))
      (st : List (String × List QEntry) × List (String × Option String)),
      (∀ pc ∈ claims, pc.1 ≠ prop) →
      amountsAt
        (claims.foldl (fun st2 pc => pc.2.foldl (qcStep g pc.1) st2) st).1 prop =
        amountsAt st.1 prop := by
  intro claims
  induction claims with
  | nil => intro st _; rfl
  | cons pc rest ih =>
    intro st hall
    simp only [List.foldl_cons]
    rw [ih _ (fun pc2 h2 => hall pc2 (List.mem_cons_of_mem pc h2))]
    exact amountsAt_fold_other g pc.1 prop
      (fun hcon => hall pc (List.mem_cons_self pc rest) hcon.symm) pc.2 st

theorem amountsAt_outer (g : String → Option WdEntity) (prop : String)
    (cs : List (Option WdDataValue)) :
    ∀ (claims : List (String × List (Option WdDataValue)))
      (st : List (String × List QEntry) × List (String × Option String)),
      (claims.map Prod.fst).Nodup → (prop, cs) ∈ claims →
      amountsAt
        (claims.foldl (fun st2 pc => pc.2.foldl (qcStep g pc.1) st2) st).1 prop =
        amountsAt st.1 prop ++ quantityAmountsSpec cs := by
  intro claims
  induction claims with
  | nil =>
    intro st _ hmem
    cases hmem
  | cons pc rest ih =>
    intro st hnd hmem
    obtain ⟨p, cs2⟩ := pc
    simp only [List.map_cons, List.nodup_cons] at hnd
    simp only [List.foldl_cons]
    rcases List.mem_cons.mp hmem with heq | hmem2
    · injection heq with h1 h2
      subst h1
      subst h2
      rw [amountsAt_outer_other g prop rest _ ?hother]
      · exact amountsAt_fold_same g prop cs st
      case hother =>
        intro pc2 hpc2 hcon
        exact hnd.1 (hcon ▸ List.mem_map_of_mem Prod.fst hpc2)
    · have hne : prop ≠ p := by
        intro hcon
        subst hcon
        exact hnd.1 (List.mem_map_of_mem Prod.fst hmem2)
      rw [ih _ hnd.2 hmem2]
      rw [amountsAt_fold_other g p prop hne]

/-- Claim C6 (amended): a quantity-typed claim whose amount cannot be parsed
as a float still contributes an entry for its property, with a null amount —
it is not omitted; all quantity claims appear, in order, with their parsed
amounts, and extraction is total (it never raises). -/
theorem C6_amended (getEntity : String → Option WdEntity) (ent : WdEntity)
    (prop : String) (cs : List (Option WdDataValue))
    (hnd : (ent.claims.map Prod.fst).Nodup)
    (hmem : (prop, cs) ∈ ent.claims) :
    amountsAt (wikidata_extract_quantity_claims getEntity (some ent)) prop =
      quantityAmountsSpec cs := by
  unfold wikidata_extract_quantity_claims
  rw [amountsAt_outer getEntity prop cs ent.claims ([], []) hnd hmem]
  rfl

/-- Witness for C6 (amended): an entity with one malformed and one
well-formed quantity amount under `P1` yields entries `[none, 1998]`. -/
theorem C6_witness :
    (([("P1", [some (WdDataValue.quantity (some "abc") none),
               some (WdDataValue.quantity (some "+1998") none),
               some WdDataValue.otherType, none])] :
        List (String × List (Option WdDataValue))).map Prod.fst).Nodup ∧
    amountsAt
      (wikidata_extract_quantity_claims (fun _ => none)
        (some ⟨[("P1", [some (WdDataValue.quantity (some "abc") none),
                        some (WdDataValue.quantity (some "+1998") none),
                        some WdDataValue.otherType, none])], none⟩)) "P1" =
      [none, some 1998] :=
  ⟨by decide,
   (C6_amended (fun _ => none)
      ⟨[("P1", [some (WdDataValue.quantity (some "abc") none),
                some (WdDataValue.quantity (some "+1998") none),
                some WdDataValue.otherType, none])], none⟩ "P1"
      [some (WdDataValue.quantity (some "abc") none),
       some (WdDataValue.quantity (some "+1998") none),
       some WdDataValue.otherType, none]
      (by decide) (by decide)).trans (by decide)⟩

unseal Rat.add Rat.mul Rat.inv Rat.sub in
/-- Witness for C10 at a concrete environment: the synthesised item for the
title "T Car" carries exactly the eight keys and no `_wikidata` key. -/
theorem C10_witness :
    (mkSynth "T Car" ⟨some "T Car", none, some "d", none, none⟩ []).map Prod.fst =
      ["id", "name", "manufacturer", "year", "slug", "specs",
       "description", "_wiki"] ∧
    alistGet? (mkSynth "T Car" ⟨some "T Car", none, some "d", none, none⟩ [])
      "_wikidata" = none :=
  C10_synth_shape.2
    ⟨fun _ => [], fun _ => none, fun _ => [],
     fun _ => some ⟨some "T Car", none, some "d", none, none⟩,
     fun _ => none, fun _ => none⟩ "q" (some "T Car")
    [mkSynth "T Car" ⟨some "T Car", none, some "d", none, none⟩ []]
    (by decide)
    (mkSynth "T Car" ⟨some "T Car", none, some "d", none, none⟩ [])
    (List.mem_singleton.mpr rfl)

end Cougar
